import Mathlib

/-!
Shallow embedding of `nonebot-plugin-gemini-vision`
(`src/nonebot_plugin_gemini_vision/__init__.py`).

Modelling conventions:
* Raw image bytes are `List Nat`.
* An incoming message segment is a record of the attributes the plugin
  inspects: its `type` string, whether it has a `data` dict, the value of
  `data["url"]` when present, its `raw` attribute (`none` models both a
  missing attribute and Python `None`), whether it is an instance of the
  alconna `Image` class, and that class's `url` attribute.
* The HTTP world is a function `fetch : String → FetchResult`; an HTTP GET
  on `url` observes `fetch url`.  Functions that may perform GETs return a
  pair: the Python return value and the list of URLs fetched (the
  function's HTTP side effect, in order).
* Python exceptions are explicit: external operations that may raise are
  modelled by sum types (`FetchResult.exn`, `GenResult.exn`,
  `ApiBehavior.raiseExn`), and a handler run yields a trace of outgoing
  actions together with an `Outcome` (normal return, `FinishedException`
  propagating — nonebot's normal "already replied" control signal — or an
  uncaught ordinary exception).
* `UniMessage` values are lists of outgoing segments; `.reply(id=...)`
  attaches the reply segment at the front of the list.
-/

/-- Raw image bytes. -/
abbrev Bytes := List Nat

/-- Result of one HTTP GET: a status/body response, or an exception raised
during the request. -/
inductive FetchResult where
  | ok (status : Nat) (body : Bytes)
  | exn
  deriving Repr, DecidableEq

/-- The attributes of an incoming message segment that
`to_image_data` inspects. -/
structure Segment where
  type : String
  hasData : Bool
  urlInData : Option String
  raw : Option Bytes
  isAlconnaImage : Bool
  url : Option String
  deriving Repr, DecidableEq

/-- Outgoing `UniMessage` segment: text, an inline image built from raw
bytes, or a reply-to marker carrying the replied message id. -/
inductive Seg where
  | text (s : String)
  | image (raw : Bytes)
  | reply (id : String)
  deriving Repr, DecidableEq

/-- An outgoing `UniMessage` is a list of segments. -/
abbrev UniMsg := List Seg

/-- Model of `msg.reply(id=msg_id)`: attaches the reply marker to the message (uniseg
places it at index 0; only its presence matters to the claims). -/
def UniMsg.replyTo (id : String) (m : UniMsg) : UniMsg :=
  Seg.reply id :: m

/-- Embedding of `get_image_data_from_url`: perform the GET; on a non-200 status or an
exception return `None`, otherwise the body.  The second component records
the GET that was performed. -/
def get_image_data_from_url (fetch : String → FetchResult) (url : String) :
    Option Bytes × List String :=
  match fetch url with
  | .ok status body => (if status ≠ 200 then none else some body, [url])
  | .exn => (none, [url])

/-- Embedding of `to_image_data`: extract image bytes from one segment.  For an adapter
image segment (type `"image"` with a `data` dict) a `url` in the data is
fetched, else the `raw` attribute is used; for an alconna `Image`, `raw`
is preferred and its `url` fetched otherwise.  Any other segment yields
`None`.  The second component records the GETs performed. -/
def to_image_data (fetch : String → FetchResult) (segment : Segment) :
    Option Bytes × List String :=
  if segment.type = "image" ∧ segment.hasData = true then
    match segment.urlInData with
    | some img_url => get_image_data_from_url fetch img_url
    | none =>
      match segment.raw with
      | some b => (some b, [])
      | none => (none, [])
  else if segment.isAlconnaImage then
    match segment.raw with
    | some b => (some b, [])
    | none =>
      match segment.url with
      | some u => get_image_data_from_url fetch u
      | none => (none, [])
  else (none, [])

/-- The Python truthiness filter `if img_bytes:` applied to an optional
byte string: empty bytes are as falsy as `None`. -/
def truthy : Option Bytes → Option Bytes
  | some b => if b.isEmpty then none else some b
  | none => none

/-- Embedding of `extract_images_from_message`: the loop appending every truthy
`to_image_data` result, in source order. -/
def extract_images_from_message (fetch : String → FetchResult)
    (message : List Segment) : List Bytes :=
  message.filterMap fun segment => truthy (to_image_data fetch segment).1

/-- Result of an external operation that builds a segment list
(`UniMessage.generate` on the reply, `event.get_message()`): the segments,
or an exception raised by the collaborator. -/
inductive GenResult where
  | ok (segs : List Segment)
  | exn
  deriving Repr, DecidableEq

/-- The loop body of `collect_images` over the generated reply message:
only segments that are alconna `Image` instances are considered, and
truthy results are appended in order. -/
def reply_images (fetch : String → FetchResult) (segs : List Segment) :
    List Bytes :=
  segs.filterMap fun segment =>
    if segment.isAlconnaImage then truthy (to_image_data fetch segment).1
    else none

/-- Embedding of `collect_images`: images of the replied-to message first (none if there
is no reply or its generation raised — the exception is caught and logged),
then the images extracted from the triggering message (none if
`event.get_message()` raised). -/
def collect_images (fetch : String → FetchResult)
    (reply : Option GenResult) (message : GenResult) : List Bytes :=
  let fromReply :=
    match reply with
    | some (.ok segs) => reply_images fetch segs
    | some .exn => []
    | none => []
  let fromMessage :=
    match message with
    | .ok segs => extract_images_from_message fetch segs
    | .exn => []
  fromReply ++ fromMessage

/-- Modelled from the spec: the `GeminiResponse` record produced by the
`.core` module (not under `src/`): "{ success: bool, text: optional string,
image: optional byte buffer, error: optional string }". -/
structure GeminiResponse where
  success : Bool
  text : Option String
  image : Option Bytes
  error : Option String
  deriving Repr, DecidableEq

/-- Python truthiness of an optional string (`if response.text:`). -/
def optStrTruthy : Option String → Bool
  | some s => !s.isEmpty
  | none => false

/-- Python truthiness of an optional byte string (`if response.image:`). -/
def optBytesTruthy : Option Bytes → Bool
  | some b => !b.isEmpty
  | none => false

/-- Observable actions of a handler run: a `.send`, a `.finish` (which
raises `FinishedException` after sending), the history store's clear call,
and the remote API call. -/
inductive Act where
  | send (m : UniMsg)
  | finishMsg (m : UniMsg)
  | clearHistory (uid : String)
  | apiCall (prompt : String) (uid : String) (images : List Bytes)
  deriving Repr, DecidableEq

/-- How a block of handler code ends: plain return, `FinishedException`
propagating (the framework's normal completion signal raised by
`.finish`), or an ordinary uncaught exception with its `str(e)`. -/
inductive Outcome where
  | normal
  | finished
  | errored (msg : String)
  deriving Repr, DecidableEq

/-- Sequencing with exception propagation: the continuation runs only when
the first block returned normally. -/
def seqOut (r : List Act × Outcome) (k : Unit → List Act × Outcome) :
    List Act × Outcome :=
  match r with
  | (as, .normal) => let (bs, o) := k (); (as ++ bs, o)
  | (as, o) => (as, o)

/-- Embedding of `send_gemini_response`: on failure finish with just the error text
(`UniMessage(response.error)`, no reply marker); on success finish with the
truthy text part then the truthy image part, addressed as a reply.  (The
`error = None` failure case is not modelled; the claims supply an error
string.) -/
def send_gemini_response (response : GeminiResponse) (msg_id : String) :
    List Act × Outcome :=
  if !response.success then
    ([Act.finishMsg [Seg.text (response.error.getD "")]], Outcome.finished)
  else
    let msg : UniMsg :=
      (if optStrTruthy response.text then [Seg.text (response.text.getD "")]
       else [])
      ++ (if optBytesTruthy response.image
          then [Seg.image (response.image.getD [])] else [])
    ([Act.finishMsg (UniMsg.replyTo msg_id msg)], Outcome.finished)

/-- Embedding of `handle_clear_history`: call the store's clear with the user id, then
finish with the success or the not-found reply. -/
def handle_clear_history (clearResult : Bool) (user_id msg_id : String) :
    List Act × Outcome :=
  if clearResult then
    ([Act.clearHistory user_id,
      Act.finishMsg (UniMsg.replyTo msg_id [Seg.text "对话历史已清除"])],
     Outcome.finished)
  else
    ([Act.clearHistory user_id,
      Act.finishMsg (UniMsg.replyTo msg_id [Seg.text "没有找到对话历史"])],
     Outcome.finished)

/-- Embedding of `send_processing_message`: a `.send` (not a finish) of the
acknowledgement, whose text depends on whether images were collected,
addressed as a reply. -/
def send_processing_message (image_list : List Bytes) (msg_id : String) :
    List Act × Outcome :=
  if !image_list.isEmpty then
    ([Act.send (UniMsg.replyTo msg_id
        [Seg.text ("正在处理您的请求（包含 " ++ toString image_list.length
                   ++ " 张图片），请稍等...")])],
     Outcome.normal)
  else
    ([Act.send (UniMsg.replyTo msg_id [Seg.text "正在处理您的请求，请稍等..."])],
     Outcome.normal)

/-- Behaviour of the external `chat_with_gemini` call (`.core`, not under
`src/`): return a response, raise `FinishedException`, or raise an
ordinary exception. -/
inductive ApiBehavior where
  | ret (r : GeminiResponse)
  | raiseFinished
  | raiseExn (msg : String)
  deriving Repr, DecidableEq

/-- Embedding of `process_gemini_request`: call the API and send the response inside a
`try`; `except FinishedException: pass` swallows the finish signal (so the
function returns normally), and `except Exception` finishes with an error
message built from `str(e)` (that finish's own `FinishedException`
propagates out). -/
def process_gemini_request (api : ApiBehavior) (prompt_text user_id : String)
    (image_list : List Bytes) (msg_id : String) : List Act × Outcome :=
  match api with
  | .ret r =>
    let res := send_gemini_response r msg_id
    match res.2 with
    | .finished => (Act.apiCall prompt_text user_id image_list :: res.1,
                    Outcome.normal)
    | .normal => (Act.apiCall prompt_text user_id image_list :: res.1,
                  Outcome.normal)
    | .errored m =>
      (Act.apiCall prompt_text user_id image_list :: res.1
        ++ [Act.finishMsg [Seg.text ("处理请求时出错: " ++ m)]],
       Outcome.finished)
  | .raiseFinished => ([Act.apiCall prompt_text user_id image_list],
                       Outcome.normal)
  | .raiseExn m =>
    ([Act.apiCall prompt_text user_id image_list,
      Act.finishMsg [Seg.text ("处理请求时出错: " ++ m)]],
     Outcome.finished)

/-- The plugin's `_help_str` (the multi-line literal after `.strip()`). -/
def help_str : String :=
  "Gemini Vision 帮助\n/gemini <问题> - 与Gemini聊天，可包含以下特殊指令：\n- 回复图片 + 问题：分析图片内容（支持多图）、编辑图片\n- \"清除历史\"：清除对话历史记录\n/gemini_help - 查看帮助信息"

/-- The clear-history trigger phrases. -/
def clear_triggers : List String := ["清除历史", "清除对话历史", "clear", "exit"]

/-- Model of `not prompt.available or not prompt.result`: the prompt match is absent
or an empty string. -/
def promptEmpty : Option String → Bool
  | some s => s.isEmpty
  | none => true

/-- Embedding of `handle_gemini`: help on an empty prompt, the clear-history path on a
trigger phrase (whose finish propagates, short-circuiting the rest), else
collect images, send the processing acknowledgement and run the request.
External collaborators are parameters: the API behaviour, the clear
operation's boolean result, the HTTP world, the generated reply segments
and the triggering message's segments. -/
def handle_gemini (api : ApiBehavior) (clearResult : Bool)
    (fetch : String → FetchResult) (reply : Option GenResult)
    (message : GenResult) (user_id msg_id : String)
    (prompt : Option String) : List Act × Outcome :=
  seqOut
    (if promptEmpty prompt then
      ([Act.finishMsg (UniMsg.replyTo msg_id [Seg.text help_str])],
       Outcome.finished)
     else ([], Outcome.normal))
    fun _ =>
      let prompt_text := prompt.getD ""
      seqOut
        (if clear_triggers.contains prompt_text then
          handle_clear_history clearResult user_id msg_id
         else ([], Outcome.normal))
        fun _ =>
          let image_list := collect_images fetch reply message
          seqOut (send_processing_message image_list msg_id) fun _ =>
            process_gemini_request api prompt_text user_id image_list msg_id

/-- Segments `to_image_data` may yield bytes for: an adapter image segment
or an alconna `Image`. -/
def isImageSeg (s : Segment) : Bool :=
  (s.type == "image" && s.hasData) || s.isAlconnaImage

/-- A segment resolves: `to_image_data` yields truthy (non-empty) bytes. -/
def resolvesB (fetch : String → FetchResult) (s : Segment) : Bool :=
  match (to_image_data fetch s).1 with
  | some b => !b.isEmpty
  | none => false

/-- Messages sent to the chat by a trace (either `.send` or the message of
a `.finish`). -/
def sentMsgs (t : List Act) : List UniMsg :=
  t.filterMap fun a =>
    match a with
    | .send m => some m
    | .finishMsg m => some m
    | _ => none

/-! Helper lemmas. -/

/-- A truthy result is necessarily non-empty bytes. -/
lemma truthy_eq_some {o : Option Bytes} {b : Bytes} (h : truthy o = some b) :
    b ≠ [] := by
  cases o with
  | none => simp [truthy] at h
  | some c =>
    by_cases hc : c.isEmpty
    · simp [truthy, hc] at h
    · simp [truthy, hc] at h
      subst h
      cases c with
      | nil => simp at hc
      | cons x xs => simp

/-- A segment that is neither an adapter image segment nor an alconna
image yields nothing and fetches nothing. -/
lemma to_image_data_not_image (fetch : String → FetchResult) (s : Segment)
    (h : isImageSeg s = false) : to_image_data fetch s = (none, []) := by
  unfold isImageSeg at h
  rw [Bool.or_eq_false_iff] at h
  obtain ⟨h1, h2⟩ := h
  have h1' : ¬(s.type = "image" ∧ s.hasData = true) := by
    intro ⟨ha, hb⟩
    rw [ha, hb] at h1
    simp at h1
  unfold to_image_data
  rw [if_neg h1', if_neg (by simp [h2])]

/-- A segment that resolves yields some non-empty bytes. -/
lemma resolvesB_spec (fetch : String → FetchResult) (s : Segment)
    (h : resolvesB fetch s = true) :
    ∃ b, (to_image_data fetch s).1 = some b ∧ b.isEmpty = false := by
  unfold resolvesB at h
  cases hx : (to_image_data fetch s).1 with
  | none => rw [hx] at h; simp at h
  | some b => rw [hx] at h; exact ⟨b, rfl, by simpa using h⟩

/-- When every image segment of a message resolves, the extraction loop
keeps exactly one (non-empty) buffer per image segment, in order. -/
lemma extract_images_count (fetch : String → FetchResult)
    (segs : List Segment)
    (h : ∀ s ∈ segs, isImageSeg s = true → resolvesB fetch s = true) :
    (extract_images_from_message fetch segs).length
      = segs.countP (fun s => isImageSeg s) := by
  induction segs with
  | nil => rfl
  | cons a t ih =>
    have ht : ∀ s ∈ t, isImageSeg s = true → resolvesB fetch s = true :=
      fun s hs => h s (List.mem_cons_of_mem a hs)
    have IH := ih ht
    simp only [extract_images_from_message] at IH ⊢
    by_cases hA : isImageSeg a = true
    · obtain ⟨b, hb1, hb2⟩ := resolvesB_spec fetch a (h a (List.mem_cons_self a t) hA)
      have hbne : b ≠ [] := by
        cases b with
        | nil => simp at hb2
        | cons x xs => simp
      have htr : truthy (to_image_data fetch a).1 = some b := by
        rw [hb1]
        simp [truthy, hbne]
      simp only [List.filterMap_cons, htr, List.length_cons, List.countP_cons, hA]
      simp [IH]
    · have hn := to_image_data_not_image fetch a (by simpa using hA)
      have htr : truthy (to_image_data fetch a).1 = none := by
        rw [hn]
        rfl
      simp only [List.filterMap_cons, htr, List.countP_cons, hA]
      simp [IH]

/-- When every alconna image of the reply resolves, the reply loop keeps
exactly one buffer per alconna image segment, in order. -/
lemma reply_images_count (fetch : String → FetchResult)
    (segs : List Segment)
    (h : ∀ s ∈ segs, s.isAlconnaImage = true → resolvesB fetch s = true) :
    (reply_images fetch segs).length
      = segs.countP (fun s => s.isAlconnaImage) := by
  induction segs with
  | nil => rfl
  | cons a t ih =>
    have ht : ∀ s ∈ t, s.isAlconnaImage = true → resolvesB fetch s = true :=
      fun s hs => h s (List.mem_cons_of_mem a hs)
    have IH := ih ht
    simp only [reply_images] at IH ⊢
    by_cases hA : a.isAlconnaImage = true
    · obtain ⟨b, hb1, hb2⟩ := resolvesB_spec fetch a (h a (List.mem_cons_self a t) hA)
      have hbne : b ≠ [] := by
        cases b with
        | nil => simp at hb2
        | cons x xs => simp
      have htr : truthy (to_image_data fetch a).1 = some b := by
        rw [hb1]
        simp [truthy, hbne]
      simp only [List.filterMap_cons, hA, if_true, htr, List.length_cons,
                 List.countP_cons]
      simp [IH]
    · simp only [List.filterMap_cons, hA, List.countP_cons]
      simp [hA, IH]

/-! Concrete collaborators used by the witnesses. -/

/-- An HTTP world where every GET succeeds with body `[7]`. -/
def exFetch : String → FetchResult := fun _ => FetchResult.ok 200 [7]

/-- An alconna image segment carrying raw bytes `[3]`. -/
def exAlc : Segment :=
  { type := "alc", hasData := false, urlInData := none, raw := some [3],
    isAlconnaImage := true, url := none }

/-- An adapter image segment carrying raw bytes `[4]` and no url. -/
def exAdp : Segment :=
  { type := "image", hasData := true, urlInData := none, raw := some [4],
    isAlconnaImage := false, url := none }

/-- C1: with a reply whose alconna image segments all resolve and a
triggering message whose image segments all resolve, `collect_images`
returns the reply's buffers first, then the message's, with exactly one
entry per image segment on each side: N+M entries in total, in source
order. -/
theorem collect_images_reply_first (fetch : String → FetchResult)
    (rsegs msegs : List Segment)
    (hr : ∀ s ∈ rsegs, s.isAlconnaImage = true → resolvesB fetch s = true)
    (hm : ∀ s ∈ msegs, isImageSeg s = true → resolvesB fetch s = true) :
    collect_images fetch (some (GenResult.ok rsegs)) (GenResult.ok msegs)
      = reply_images fetch rsegs ++ extract_images_from_message fetch msegs
    ∧ (reply_images fetch rsegs).length
        = rsegs.countP (fun s => s.isAlconnaImage)
    ∧ (extract_images_from_message fetch msegs).length
        = msegs.countP (fun s => isImageSeg s)
    ∧ (collect_images fetch (some (GenResult.ok rsegs)) (GenResult.ok msegs)).length
        = rsegs.countP (fun s => s.isAlconnaImage)
          + msegs.countP (fun s => isImageSeg s) := by
  refine ⟨rfl, reply_images_count fetch rsegs hr, extract_images_count fetch msegs hm, ?_⟩
  simp [collect_images, reply_images_count fetch rsegs hr,
        extract_images_count fetch msegs hm]

/-- C1 witness: one alconna image in the reply and one adapter image in
the message, both resolving, give the two buffers in reply-first order. -/
theorem collect_images_reply_first_witness :
    collect_images exFetch (some (GenResult.ok [exAlc])) (GenResult.ok [exAdp])
      = reply_images exFetch [exAlc] ++ extract_images_from_message exFetch [exAdp]
    ∧ (reply_images exFetch [exAlc]).length
        = [exAlc].countP (fun s => s.isAlconnaImage)
    ∧ (extract_images_from_message exFetch [exAdp]).length
        = [exAdp].countP (fun s => isImageSeg s)
    ∧ (collect_images exFetch (some (GenResult.ok [exAlc])) (GenResult.ok [exAdp])).length
        = [exAlc].countP (fun s => s.isAlconnaImage)
          + [exAdp].countP (fun s => isImageSeg s) :=
  collect_images_reply_first exFetch [exAlc] [exAdp] (by decide) (by decide)

/-- An adapter image segment that carries both a url in its data and raw
bytes `[1]`. -/
def cexSeg : Segment :=
  { type := "image", hasData := true, urlInData := some "http://img",
    raw := some [1], isAlconnaImage := false, url := none }

/-- An HTTP world whose GETs all succeed with body `[9]`. -/
def cexFetch : String → FetchResult := fun _ => FetchResult.ok 200 [9]

/-- C2 counterexample: a segment that already carries raw bytes `[1]` is
nevertheless resolved by an HTTP GET (one fetch of its data url is
recorded) and the fetched body `[9]`, not the raw bytes, is returned. -/
theorem to_image_data_url_over_raw :
    cexSeg.raw = some [1]
    ∧ to_image_data cexFetch cexSeg = (some [9], ["http://img"])
    ∧ (to_image_data cexFetch cexSeg).2 ≠ [] := by
  refine ⟨rfl, ?_, ?_⟩ <;> decide

/-- C2 amended: raw bytes are used directly (with no fetch) in the adapter
image path only when the segment's data carries no url, and in the alconna
path whenever present; when an adapter image segment's data carries a url,
the GET is performed regardless of raw bytes; and a GET happens only with
a url in the data (adapter path) or with a url and no raw bytes (alconna
path). -/
theorem to_image_data_raw_rules (fetch : String → FetchResult)
    (seg : Segment) (b : Bytes) (u : String) :
    (seg.type = "image" → seg.hasData = true → seg.urlInData = some u →
       to_image_data fetch seg = get_image_data_from_url fetch u)
    ∧ (seg.type = "image" → seg.hasData = true → seg.urlInData = none →
         seg.raw = some b → to_image_data fetch seg = (some b, []))
    ∧ (¬(seg.type = "image" ∧ seg.hasData = true) → seg.isAlconnaImage = true →
         seg.raw = some b → to_image_data fetch seg = (some b, []))
    ∧ ((to_image_data fetch seg).2 = []
       ∨ (seg.type = "image" ∧ seg.hasData = true
          ∧ ∃ v, seg.urlInData = some v ∧ (to_image_data fetch seg).2 = [v])
       ∨ (seg.isAlconnaImage = true ∧ seg.raw = none
          ∧ ∃ v, seg.url = some v ∧ (to_image_data fetch seg).2 = [v])) := by
  refine ⟨?_, ?_, ?_, ?_⟩
  · intro h1 h2 h3
    simp [to_image_data, h1, h2, h3]
  · intro h1 h2 h3 h4
    simp [to_image_data, h1, h2, h3, h4]
  · intro h1 h2 h3
    simp [to_image_data, h1, h2, h3]
  · by_cases h1 : seg.type = "image" ∧ seg.hasData = true
    · cases hu : seg.urlInData with
      | none =>
        left
        cases hr : seg.raw <;> simp [to_image_data, h1, hu, hr]
      | some v =>
        right; left
        refine ⟨h1.1, h1.2, v, rfl, ?_⟩
        simp [to_image_data, h1, hu, get_image_data_from_url]
        cases hf : fetch v <;> simp
    · by_cases h2 : seg.isAlconnaImage = true
      · cases hr : seg.raw with
        | some c => left; simp [to_image_data, h1, h2, hr]
        | none =>
          cases hu : seg.url with
          | none => left; simp [to_image_data, h1, h2, hr, hu]
          | some v =>
            right; right
            refine ⟨h2, rfl, v, rfl, ?_⟩
            simp [to_image_data, h1, h2, hr, hu, get_image_data_from_url]
            cases hf : fetch v <;> simp
      · left
        simp [to_image_data, h1, h2]

/-- An adapter image segment with a data url and no raw bytes. -/
def segUrlOnly : Segment :=
  { type := "image", hasData := true, urlInData := some "u", raw := none,
    isAlconnaImage := false, url := none }

/-- An adapter image segment with raw bytes `[1]` and no data url. -/
def segRawOnly : Segment :=
  { type := "image", hasData := true, urlInData := none, raw := some [1],
    isAlconnaImage := false, url := none }

/-- An alconna image segment with raw bytes `[1]`. -/
def segAlcRaw : Segment :=
  { type := "alc", hasData := false, urlInData := none, raw := some [1],
    isAlconnaImage := true, url := none }

/-- C2 witness: the three positive rules of the amended claim at concrete
segments. -/
theorem to_image_data_raw_rules_witness :
    to_image_data cexFetch segUrlOnly = get_image_data_from_url cexFetch "u"
    ∧ to_image_data cexFetch segRawOnly = (some [1], [])
    ∧ to_image_data cexFetch segAlcRaw = (some [1], []) :=
  ⟨(to_image_data_raw_rules cexFetch segUrlOnly [1] "u").1 rfl rfl rfl,
   (to_image_data_raw_rules cexFetch segRawOnly [1] "u").2.1 rfl rfl rfl rfl,
   (to_image_data_raw_rules cexFetch segAlcRaw [1] "u").2.2.1 (by decide) rfl rfl⟩

/-- C3: an absent or empty prompt makes the handler finish with exactly
the static help text, as a reply to the triggering message; the trace
holds no clear-history call, no processing send and no API call. -/
theorem handle_gemini_empty_prompt (api : ApiBehavior) (clearResult : Bool)
    (fetch : String → FetchResult) (reply : Option GenResult)
    (message : GenResult) (user_id msg_id : String) (prompt : Option String)
    (h : prompt = none ∨ prompt = some "") :
    handle_gemini api clearResult fetch reply message user_id msg_id prompt
      = ([Act.finishMsg (UniMsg.replyTo msg_id [Seg.text help_str])],
         Outcome.finished) := by
  rcases h with h | h <;> subst h <;> rfl

/-- C3 witness: the handler at an absent prompt. -/
theorem handle_gemini_empty_prompt_witness :
    (none = (none : Option String) ∨ (none : Option String) = some "")
    ∧ handle_gemini ApiBehavior.raiseFinished true exFetch none
        (GenResult.ok []) "u1" "m1" none
      = ([Act.finishMsg (UniMsg.replyTo "m1" [Seg.text help_str])],
         Outcome.finished) :=
  ⟨Or.inl rfl,
   handle_gemini_empty_prompt ApiBehavior.raiseFinished true exFetch none
     (GenResult.ok []) "u1" "m1" none (Or.inl rfl)⟩

/-- C4: a clear-history trigger phrase makes the handler invoke the
store's clear with the session's user id and finish with the success or
the not-found reply according to the clear result, with no processing
acknowledgement and no API call in the trace. -/
theorem handle_gemini_clear_trigger (api : ApiBehavior) (clearResult : Bool)
    (fetch : String → FetchResult) (reply : Option GenResult)
    (message : GenResult) (user_id msg_id : String) (ptext : String)
    (h : ptext ∈ clear_triggers) :
    handle_gemini api clearResult fetch reply message user_id msg_id (some ptext)
      = (if clearResult then
          ([Act.clearHistory user_id,
            Act.finishMsg (UniMsg.replyTo msg_id [Seg.text "对话历史已清除"])],
           Outcome.finished)
         else
          ([Act.clearHistory user_id,
            Act.finishMsg (UniMsg.replyTo msg_id [Seg.text "没有找到对话历史"])],
           Outcome.finished)) := by
  have h' : ptext = "清除历史" ∨ ptext = "清除对话历史" ∨ ptext = "clear"
      ∨ ptext = "exit" := by
    simpa [clear_triggers] using h
  rcases h' with h | h | h | h <;> subst h <;> cases clearResult <;> rfl

/-- C4 witness: the "clear" trigger with a successful clear. -/
theorem handle_gemini_clear_trigger_witness :
    handle_gemini ApiBehavior.raiseFinished true exFetch none
        (GenResult.ok []) "u1" "m1" (some "clear")
      = ([Act.clearHistory "u1",
          Act.finishMsg (UniMsg.replyTo "m1" [Seg.text "对话历史已清除"])],
         Outcome.finished) := by
  have := handle_gemini_clear_trigger ApiBehavior.raiseFinished true exFetch
    none (GenResult.ok []) "u1" "m1" "clear" (by decide)
  simpa using this

/-- C5: a non-200 fetch makes `get_image_data_from_url` return `None`
(after one GET), the segment yields no bytes, it is omitted from the
extracted and collected lists, and every collection function still returns
a value even when the collaborators raise (exceptions are absorbed, never
propagated). -/
theorem non200_fetch_omitted (fetch : String → FetchResult) (url : String)
    (st : Nat) (body : Bytes) (seg : Segment) (pre post : List Segment)
    (reply : Option GenResult)
    (hf : fetch url = FetchResult.ok st body) (hst : st ≠ 200)
    (h1 : seg.type = "image") (h2 : seg.hasData = true)
    (h3 : seg.urlInData = some url) :
    get_image_data_from_url fetch url = (none, [url])
    ∧ (to_image_data fetch seg).1 = none
    ∧ extract_images_from_message fetch (pre ++ seg :: post)
        = extract_images_from_message fetch (pre ++ post)
    ∧ collect_images fetch reply (GenResult.ok (pre ++ seg :: post))
        = collect_images fetch reply (GenResult.ok (pre ++ post))
    ∧ collect_images fetch (some GenResult.exn) GenResult.exn = [] := by
  have hg : get_image_data_from_url fetch url = (none, [url]) := by
    simp [get_image_data_from_url, hf, hst]
  have ht : to_image_data fetch seg = (none, [url]) := by
    rw [to_image_data, if_pos ⟨h1, h2⟩, h3]
    exact hg
  have he : extract_images_from_message fetch (pre ++ seg :: post)
      = extract_images_from_message fetch (pre ++ post) := by
    simp only [extract_images_from_message, List.filterMap_append,
               List.filterMap_cons, ht, truthy]
  refine ⟨hg, by rw [ht], he, ?_, rfl⟩
  simp only [collect_images, he]

/-- An HTTP world answering every GET with status 404. -/
def fetch404 : String → FetchResult := fun _ => FetchResult.ok 404 [1, 2]

/-- An adapter image segment pointing at a url (and nothing else). -/
def seg404 : Segment :=
  { type := "image", hasData := true, urlInData := some "http://x",
    raw := none, isAlconnaImage := false, url := none }

/-- C5 witness: under the 404 world the url segment is dropped while a
raw-bytes segment before it survives. -/
theorem non200_fetch_omitted_witness :
    get_image_data_from_url fetch404 "http://x" = (none, ["http://x"])
    ∧ (to_image_data fetch404 seg404).1 = none
    ∧ extract_images_from_message fetch404 ([exAdp] ++ seg404 :: [])
        = extract_images_from_message fetch404 ([exAdp] ++ [])
    ∧ collect_images fetch404 none (GenResult.ok ([exAdp] ++ seg404 :: []))
        = collect_images fetch404 none (GenResult.ok ([exAdp] ++ []))
    ∧ collect_images fetch404 (some GenResult.exn) GenResult.exn = [] :=
  non200_fetch_omitted fetch404 "http://x" 404 [1, 2] seg404 [exAdp] []
    none rfl (by decide) rfl rfl rfl

/-- Count of inline image attachments in an outgoing message. -/
def countImages (m : UniMsg) : Nat :=
  m.countP fun s => match s with | Seg.image _ => true | _ => false

/-- Count of text runs in an outgoing message. -/
def countTexts (m : UniMsg) : Nat :=
  m.countP fun s => match s with | Seg.text _ => true | _ => false

/-- C6: a successful response with truthy image bytes and no truthy text
is finished as a reply whose content is exactly one image attachment and
no text. -/
theorem send_gemini_response_image_only (response : GeminiResponse)
    (msg_id : String) (b : Bytes)
    (hs : response.success = true) (hi : response.image = some b)
    (hb : b ≠ []) (htext : response.text = none ∨ response.text = some "") :
    send_gemini_response response msg_id
      = ([Act.finishMsg (UniMsg.replyTo msg_id [Seg.image b])],
         Outcome.finished)
    ∧ countImages (UniMsg.replyTo msg_id [Seg.image b]) = 1
    ∧ countTexts (UniMsg.replyTo msg_id [Seg.image b]) = 0 := by
  have hbe : b.isEmpty = false := by
    cases b with
    | nil => exact absurd rfl hb
    | cons x xs => rfl
  have hempty : ("" : String).isEmpty = true := rfl
  refine ⟨?_, rfl, rfl⟩
  rcases htext with h | h <;>
    simp [send_gemini_response, hs, hi, h, optStrTruthy, optBytesTruthy, hbe,
          hempty]

/-- C6 witness: a success response carrying only the image `[5]`. -/
theorem send_gemini_response_image_only_witness :
    send_gemini_response
        { success := true, text := none, image := some [5], error := none }
        "m1"
      = ([Act.finishMsg (UniMsg.replyTo "m1" [Seg.image [5]])],
         Outcome.finished)
    ∧ countImages (UniMsg.replyTo "m1" [Seg.image [5]]) = 1
    ∧ countTexts (UniMsg.replyTo "m1" [Seg.image [5]]) = 0 :=
  send_gemini_response_image_only
    { success := true, text := none, image := some [5], error := none }
    "m1" [5] rfl rfl (by decide) (Or.inl rfl)

/-- C7: a failure response is finished with a message holding exactly the
error string — no text/image content of the success path and no reply
marker (in particular none of the processing-acknowledgement content). -/
theorem send_gemini_response_failure (response : GeminiResponse)
    (msg_id e : String)
    (hs : response.success = false) (he : response.error = some e) :
    send_gemini_response response msg_id
      = ([Act.finishMsg [Seg.text e]], Outcome.finished)
    ∧ countImages [Seg.text e] = 0
    ∧ (∀ i, Seg.reply i ∉ ([Seg.text e] : UniMsg)) := by
  refine ⟨?_, rfl, by simp⟩
  simp [send_gemini_response, hs, he]

/-- C7 witness: a failure response with error string "boom". -/
theorem send_gemini_response_failure_witness :
    send_gemini_response
        { success := false, text := some "t", image := some [5],
          error := some "boom" } "m1"
      = ([Act.finishMsg [Seg.text "boom"]], Outcome.finished)
    ∧ countImages [Seg.text "boom"] = 0
    ∧ (∀ i, Seg.reply i ∉ ([Seg.text "boom"] : UniMsg)) :=
  send_gemini_response_failure
    { success := false, text := some "t", image := some [5],
      error := some "boom" } "m1" "boom" rfl rfl

/-- Both branches of `send_gemini_response` end in a finish. -/
lemma send_gemini_response_snd (response : GeminiResponse) (msg_id : String) :
    (send_gemini_response response msg_id).2 = Outcome.finished := by
  by_cases hs : response.success <;> simp [send_gemini_response, hs]

/-- C8: in `process_gemini_request` a `FinishedException` from the
call-and-respond path is swallowed (the function returns normally, sending
nothing further), any other exception is caught and reported by finishing
with an error message built from it, and no path lets an ordinary
exception escape. -/
theorem process_gemini_request_errors (prompt_text user_id : String)
    (image_list : List Bytes) (msg_id : String) :
    process_gemini_request ApiBehavior.raiseFinished prompt_text user_id
        image_list msg_id
      = ([Act.apiCall prompt_text user_id image_list], Outcome.normal)
    ∧ (∀ m, process_gemini_request (ApiBehavior.raiseExn m) prompt_text
          user_id image_list msg_id
        = ([Act.apiCall prompt_text user_id image_list,
            Act.finishMsg [Seg.text ("处理请求时出错: " ++ m)]],
           Outcome.finished))
    ∧ (∀ api m, (process_gemini_request api prompt_text user_id image_list
          msg_id).2 ≠ Outcome.errored m) := by
  refine ⟨rfl, fun m => rfl, ?_⟩
  intro api m
  cases api with
  | ret r =>
    have h2 := send_gemini_response_snd r msg_id
    simp [process_gemini_request, h2]
  | raiseFinished => simp [process_gemini_request]
  | raiseExn m2 => simp [process_gemini_request]

/-- C9: every buffer in the extracted and collected lists is non-empty —
the truthiness filter drops empty bytes as well as `None` — and a segment
that yields empty bytes (an empty `raw`, or a 200 fetch with an empty
body) is omitted from the list. -/
theorem collected_images_nonempty (fetch : String → FetchResult)
    (reply : Option GenResult) (message : GenResult)
    (segs pre post : List Segment) (seg : Segment)
    (hseg : (to_image_data fetch seg).1 = some []) :
    (∀ b ∈ extract_images_from_message fetch segs, b ≠ [])
    ∧ (∀ b ∈ collect_images fetch reply message, b ≠ [])
    ∧ extract_images_from_message fetch (pre ++ seg :: post)
        = extract_images_from_message fetch (pre ++ post) := by
  have hex : ∀ segs2 : List Segment,
      ∀ b ∈ extract_images_from_message fetch segs2, b ≠ [] := by
    intro segs2 b hb
    rw [extract_images_from_message] at hb
    obtain ⟨a, _, hfa⟩ := List.mem_filterMap.mp hb
    exact truthy_eq_some hfa
  refine ⟨hex segs, ?_, ?_⟩
  · intro b hb
    simp only [collect_images, List.mem_append] at hb
    rcases hb with hb | hb
    · rcases reply with _ | g
      · simp at hb
      · rcases g with rs | _
        · have hb' : b ∈ reply_images fetch rs := hb
          rw [reply_images] at hb'
          obtain ⟨a, _, hfa⟩ := List.mem_filterMap.mp hb'
          by_cases hA : a.isAlconnaImage = true
          · rw [if_pos hA] at hfa
            exact truthy_eq_some hfa
          · rw [if_neg hA] at hfa
            exact absurd hfa (by simp)
        · simp at hb
    · rcases message with ms | _
      · exact hex ms b hb
      · simp at hb
  · have htr : truthy (to_image_data fetch seg).1 = none := by
      rw [hseg]
      rfl
    simp only [extract_images_from_message, List.filterMap_append,
               List.filterMap_cons, htr]

/-- An adapter image segment whose raw attribute is the empty byte
string. -/
def segEmptyRaw : Segment :=
  { type := "image", hasData := true, urlInData := none, raw := some [],
    isAlconnaImage := false, url := none }

/-- C9 witness: with an empty-raw segment present, the collected buffers
are all non-empty and the segment is dropped. -/
theorem collected_images_nonempty_witness :
    (∀ b ∈ extract_images_from_message exFetch [exAdp], b ≠ [])
    ∧ (∀ b ∈ collect_images exFetch (some (GenResult.ok [exAlc]))
          (GenResult.ok [exAdp]), b ≠ [])
    ∧ extract_images_from_message exFetch ([exAdp] ++ segEmptyRaw :: [])
        = extract_images_from_message exFetch ([exAdp] ++ []) :=
  collected_images_nonempty exFetch (some (GenResult.ok [exAlc]))
    (GenResult.ok [exAdp]) [exAdp] [exAdp] [] segEmptyRaw (by decide)

/-- C10: a failure response is sent with no reply marker attached, while
the help reply, both clear-history replies, both processing
acknowledgements and the success reply all carry the reply marker with
the triggering message's id. -/
theorem reply_addressing (rf rs : GeminiResponse) (e : String)
    (api : ApiBehavior) (clearResult : Bool) (fetch : String → FetchResult)
    (reply : Option GenResult) (message : GenResult)
    (user_id msg_id : String) (image_list : List Bytes)
    (hf : rf.success = false) (he : rf.error = some e)
    (hs : rs.success = true) :
    (send_gemini_response rf msg_id
        = ([Act.finishMsg [Seg.text e]], Outcome.finished)
     ∧ ∀ i, Seg.reply i ∉ ([Seg.text e] : UniMsg))
    ∧ handle_gemini api clearResult fetch reply message user_id msg_id none
        = ([Act.finishMsg (UniMsg.replyTo msg_id [Seg.text help_str])],
           Outcome.finished)
    ∧ (∀ m ∈ sentMsgs (handle_clear_history clearResult user_id msg_id).1,
         m.head? = some (Seg.reply msg_id))
    ∧ (∀ m ∈ sentMsgs (send_processing_message image_list msg_id).1,
         m.head? = some (Seg.reply msg_id))
    ∧ (∃ body, send_gemini_response rs msg_id
         = ([Act.finishMsg (UniMsg.replyTo msg_id body)],
            Outcome.finished)) := by
  refine ⟨⟨?_, by simp⟩, rfl, ?_, ?_, ?_⟩
  · simp [send_gemini_response, hf, he]
  · cases clearResult <;>
      simp [handle_clear_history, sentMsgs, UniMsg.replyTo]
  · by_cases h : image_list.isEmpty <;>
      simp [send_processing_message, h, sentMsgs, UniMsg.replyTo]
  · refine ⟨(if optStrTruthy rs.text then [Seg.text (rs.text.getD "")]
        else [])
      ++ (if optBytesTruthy rs.image then [Seg.image (rs.image.getD [])]
          else []), ?_⟩
    simp [send_gemini_response, hs]

/-- A failure response carrying the error string "err". -/
def rf0 : GeminiResponse :=
  { success := false, text := none, image := none, error := some "err" }

/-- A success response carrying the text "hi". -/
def rs0 : GeminiResponse :=
  { success := true, text := some "hi", image := none, error := none }

/-- C10 witness: the addressing facts at concrete responses and inputs. -/
theorem reply_addressing_witness :
    (send_gemini_response rf0 "m1"
        = ([Act.finishMsg [Seg.text "err"]], Outcome.finished)
     ∧ ∀ i, Seg.reply i ∉ ([Seg.text "err"] : UniMsg))
    ∧ handle_gemini ApiBehavior.raiseFinished true exFetch none
        (GenResult.ok []) "u1" "m1" none
        = ([Act.finishMsg (UniMsg.replyTo "m1" [Seg.text help_str])],
           Outcome.finished)
    ∧ (∀ m ∈ sentMsgs (handle_clear_history true "u1" "m1").1,
         m.head? = some (Seg.reply "m1"))
    ∧ (∀ m ∈ sentMsgs (send_processing_message [[1]] "m1").1,
         m.head? = some (Seg.reply "m1"))
    ∧ (∃ body, send_gemini_response rs0 "m1"
         = ([Act.finishMsg (UniMsg.replyTo "m1" body)],
            Outcome.finished)) :=
  reply_addressing rf0 rs0 "err" ApiBehavior.raiseFinished true exFetch
    none (GenResult.ok []) "u1" "m1" [[1]] rfl rfl rfl
